import Mathlib

/-!
Shallow embedding of `src/automation.py` (data-automation-bot).

The pipeline fetches keyword mentions from three sources (Reddit search,
Google News RSS, Hacker News Algolia search), maps them to a common record
shape, merges/deduplicates/sorts them with pandas, and writes the result to
a spreadsheet.

Modelling conventions:
* A pandas/JSON cell is `Option String`; `none` models Python `None` /
  pandas `NaN` (a missing key in a raw item, or a null value).
* Each adapter takes its external collaborator's outcome as an argument:
  `Except String items` models the network fetch plus top-level response
  destructuring (an `Except.error` is any exception raised there), and the
  date-conversion collaborators (`datetime.fromtimestamp(...).isoformat()`
  and `dateutil.parser.parse(...).isoformat()`) are function parameters,
  with `Option` output for the parser since `dateutil` raises on garbage.
* Python string slicing `s[:n]` is `pyTake`, Python string comparison
  (code-point lexicographic, what pandas uses to sort an object column of
  strings) is `pyStrLe`.
* `df.sort_values(by="date", ascending=False)` sorts by the raw date
  string, descending, `na_position` last. Its default kind (quicksort) fixes
  no particular order among rows with equal date strings - it is not a
  stable sort - so the program guarantees only the key ordering and the row
  multiset. The model realises the step with one deterministic comparison
  sort (`List.insertionSort`) over that key order; no theorem below relies
  on the model's tie order: the statements are permutation-invariant, carry
  sortedness only, or assume pairwise-distinct date strings (under which
  the sorted permutation is unique, see `sorted_perm_eq_of_distinct`).
* `pd.DataFrame([])` has no columns, so `dropna(subset=["title"])` raises
  `KeyError`; `clean_and_merge` therefore returns `Except`.
-/

namespace Automation

/-- One cell of a raw item / record / sheet; `none` is Python `None` / pandas `NaN`. -/
abbrev Cell := Option String

/-- The common record shape produced by all three adapters (the dict literal
keys, in literal order: source, title, link, date, summary). -/
structure Rec where
  source : Cell
  title : Cell
  link : Cell
  date : Cell
  summary : Cell
deriving DecidableEq

/-- Python slice `s[:n]`: the first `n` characters of `s`. -/
def pyTake (n : Nat) (s : String) : String := String.mk (s.data.take n)

/-- Python truthiness of an optional string: `None` and `""` are falsy. -/
def pyTruthy : Option String → Bool
  | none => false
  | some s => !s.isEmpty

/-! Reddit adapter (`fetch_reddit`). A raw item is the `"data"` dict of one
search result; `none` in a field means the key is absent, so `item.get(k, d)`
returns the default `d`. -/

structure RedditItem where
  title : Option String
  permalink : Option String
  created_utc : Option Int
  selftext : Option String
deriving DecidableEq

/-- Mapping of one Reddit item to a record, as built in the loop body of
`fetch_reddit`; `fromts` is `datetime.fromtimestamp(...).isoformat()`. -/
def redditRecord (fromts : Int → String) (item : RedditItem) : Rec :=
  { source := some "Reddit"
  , title := some (item.title.getD "")
  , link := some ("https://www.reddit.com" ++ item.permalink.getD "")
  , date := some (fromts (item.created_utc.getD 0))
  , summary := some (pyTake 200 (item.selftext.getD "")) }

/-- Embedding of `fetch_reddit`: the whole body runs under
`try/except Exception`, so a failed fetch or response destructuring
(`resp = Except.error`) yields the empty list. -/
def fetch_reddit (fromts : Int → String) (resp : Except String (List RedditItem)) :
    List Rec :=
  match resp with
  | .error _ => []
  | .ok posts => posts.map (redditRecord fromts)

/-! Google News adapter (`fetch_google_news`). `feedparser` entries are read
with attribute access (`entry.title`, `entry.link`, `entry.published`,
`entry.summary`), which raises `AttributeError` when the field is absent;
`parser.parse` raises on a malformed date string. Both exceptions escape the
loop into the adapter-level handler. -/

structure GNewsEntry where
  title : Option String
  link : Option String
  published : Option String
  summary : Option String
deriving DecidableEq

/-- Mapping of one feed entry to a record, as built in the loop body of
`fetch_google_news`; `parseIso` is `dateutil.parser.parse(...).isoformat()`,
returning `none` when it raises. The `Except.error` cases are the exceptions
raised while building the dict literal (fields evaluated in literal order). -/
def gnewsRecord (parseIso : String → Option String) (entry : GNewsEntry) :
    Except String Rec :=
  match entry.title with
  | none => .error "AttributeError: title"
  | some t =>
    match entry.link with
    | none => .error "AttributeError: link"
    | some l =>
      match entry.published with
      | none => .error "AttributeError: published"
      | some pub =>
        match parseIso pub with
        | none => .error "ParserError"
        | some d =>
          match entry.summary with
          | none => .error "AttributeError: summary"
          | some s =>
            .ok { source := some "Google News"
                , title := some t
                , link := some l
                , date := some d
                , summary := some (pyTake 200 s) }

/-- The `for entry in feed.entries` loop building `data`: the first raised
exception aborts the loop (and the partial list is discarded by the caller). -/
def collectRecords (f : α → Except String Rec) : List α → Except String (List Rec)
  | [] => .ok []
  | x :: xs =>
    match f x with
    | .error e => .error e
    | .ok r =>
      match collectRecords f xs with
      | .error e => .error e
      | .ok rs => .ok (r :: rs)

/-- Embedding of `fetch_google_news`: the whole body runs under
`try/except Exception`; any failure (fetch/parse of the feed itself, or a
missing field / unparseable date inside the loop) yields the empty list. -/
def fetch_google_news (parseIso : String → Option String)
    (feed : Except String (List GNewsEntry)) : List Rec :=
  match feed with
  | .error _ => []
  | .ok entries =>
    match collectRecords (gnewsRecord parseIso) entries with
    | .error _ => []
    | .ok recs => recs

/-! Hacker News adapter (`fetch_hacker_news`). A raw hit is one element of
`response["hits"]`; `none` in a field means the key is absent or null. -/

structure HNHit where
  title : Option String
  url : Option String
  created_at : Option String
  story_text : Option String
deriving DecidableEq

/-- Mapping of one Algolia hit to a record, as built in the loop body of
`fetch_hacker_news`. The summary is the Python conditional expression
`h.get("story_text", "") if h.get("story_text") else ""`; the date is
`h.get("created_at", "")`, passed through with no reparsing. -/
def hnRecord (h : HNHit) : Rec :=
  { source := some "Hacker News"
  , title := some (h.title.getD "")
  , link := some (h.url.getD "")
  , date := some (h.created_at.getD "")
  , summary := some (if pyTruthy h.story_text then h.story_text.getD "" else "") }

/-- Embedding of `fetch_hacker_news`: the whole body runs under
`try/except Exception`, so a failed fetch or response destructuring yields
the empty list. -/
def fetch_hacker_news (resp : Except String (List HNHit)) : List Rec :=
  match resp with
  | .error _ => []
  | .ok hits => hits.map hnRecord

/-! Aggregator (`clean_and_merge`). -/

/-- Predicate of `df.dropna(subset=["title"])`: a row is kept iff its title
cell is not `NaN`/`None`. Note pandas `dropna` does not drop empty strings. -/
def validTitle (r : Rec) : Bool := r.title.isSome

/-- The composite key of `df.drop_duplicates(subset=["title", "link"])`. -/
def dedupKey (r : Rec) : Cell × Cell := (r.title, r.link)

/-- Embedding of `drop_duplicates(subset=["title", "link"], keep="first")`:
scan in row order, keep a row iff its key was not seen before. -/
def dropDuplicatesFirst : List Rec → List (Cell × Cell) → List Rec
  | [], _ => []
  | r :: rs, seen =>
    if dedupKey r ∈ seen then dropDuplicatesFirst rs seen
    else r :: dropDuplicatesFirst rs (dedupKey r :: seen)

/-- Python string comparison (code-point lexicographic) on char lists. -/
def pyStrLeAux : List Char → List Char → Bool
  | [], _ => true
  | _ :: _, [] => false
  | a :: as, b :: bs =>
    if a.toNat < b.toNat then true
    else if a.toNat = b.toNat then pyStrLeAux as bs
    else false

/-- Python string comparison `a <= b` (code-point lexicographic), the
comparison pandas uses to sort an object column of strings. -/
def pyStrLe (a b : String) : Bool := pyStrLeAux a.data b.data

/-- Row order realised by `sort_values(by="date", ascending=False)` with the
default `na_position` last: `dateCellLe a b` says a row with date cell `a`
may appear at or before a row with date cell `b` (non-`NaN` dates in
descending string order, `NaN` dates after every other row). -/
def dateCellLe : Cell → Cell → Bool
  | _, none => true
  | none, some _ => false
  | some x, some y => pyStrLe y x

/-- Sort-order relation on records for `sort_values(by="date", ascending=False)`. -/
def dateBefore (a b : Rec) : Prop := dateCellLe a.date b.date = true

instance : DecidableRel dateBefore := fun a b => by
  unfold dateBefore; infer_instance

/-- Embedding of `df.sort_values(by="date", ascending=False)`. The
program's default sort kind (quicksort) guarantees only the `dateBefore`
key ordering and the row multiset, not the relative order of rows with
equal date strings; the model realises one deterministic comparison sort
over that key order, and no theorem relies on this model's tie order. -/
def sortValuesByDateDesc (l : List Rec) : List Rec := l.insertionSort dateBefore

/-- Embedding of `clean_and_merge`. On the empty input, `pd.DataFrame([])`
has no columns, so `dropna(subset=["title"])` raises `KeyError`; otherwise
the frame has all five columns and the pipeline is dropna, then
drop_duplicates keeping the first, then sort by date descending. -/
def clean_and_merge (results : List Rec) : Except String (List Rec) :=
  if results.isEmpty then .error "KeyError: title"
  else .ok (sortValuesByDateDesc (dropDuplicatesFirst (results.filter validTitle) []))

/-! Sink writer (`save_to_sheet`). -/

/-- A worksheet: its current grid of rows. -/
structure Sheet where
  rows : List (List Cell)
deriving DecidableEq

/-- Embedding of `sheet.clear()`. -/
def Sheet.clear (_ : Sheet) : Sheet := ⟨[]⟩

/-- Embedding of `sheet.update(rows)`: overwrite the grid from the top-left
cell; rows beyond the written range keep their previous content. -/
def Sheet.update (s : Sheet) (rs : List (List Cell)) : Sheet :=
  ⟨rs ++ s.rows.drop rs.length⟩

/-- Column list of the pipeline DataFrame (`df.columns.tolist()`): the dict
literal keys of every adapter record, in first-seen order. -/
def dfColumns : List Cell :=
  [some "source", some "title", some "link", some "date", some "summary"]

/-- One row of `df.values.tolist()`: the record cells in column order. -/
def recToRow (r : Rec) : List Cell := [r.source, r.title, r.link, r.date, r.summary]

/-- Embedding of `save_to_sheet`: clear the sheet, then update it with the
header row followed by one row per record, in order. -/
def save_to_sheet (df : List Rec) (sheet : Sheet) : Sheet :=
  Sheet.update (Sheet.clear sheet) (dfColumns :: df.map recToRow)

/-! Concrete fixtures used by counterexamples and witnesses. -/

/-- A record as adapter A would produce it in spec scenario 1. -/
def sampleA : Rec :=
  { source := some "Reddit", title := some "X", link := some "l1"
  , date := some "2024-01-02T00:00:00", summary := some "" }

/-- A record with the same dedup key as `sampleA` but an older date. -/
def sampleB : Rec :=
  { source := some "Google News", title := some "X", link := some "l1"
  , date := some "2024-01-01T00:00:00", summary := some "" }

/-- A record whose date string is not parseable as a date. -/
def sampleZ : Rec :=
  { source := some "Hacker News", title := some "Y", link := some "l2"
  , date := some "zzz", summary := some "" }

/-- A record whose title cell is `NaN` (missing in the raw dict). -/
def noTitleRec : Rec :=
  { source := some "Reddit", title := none, link := some "l3"
  , date := some "2024-01-03T00:00:00", summary := some "" }

/-- A 201-character story text, longer than the truncation bound. -/
def longText : String := String.mk (List.replicate 201 'a')

/-- A Hacker News hit carrying none of the expected fields. -/
def emptyHit : HNHit :=
  { title := none, url := none, created_at := none, story_text := none }

/-- The record the Hacker News adapter builds from `emptyHit`: every field
defaulted, in particular an empty-string title. -/
def emptyTitleRec : Rec :=
  { source := some "Hacker News", title := some "", link := some ""
  , date := some "", summary := some "" }

/-- A Hacker News hit with a 201-character story text. -/
def longHit : HNHit :=
  { title := some "T", url := some "u", created_at := some "2024-01-02T00:00:00.000Z"
  , story_text := some longText }

/-- A Reddit item carrying none of the expected fields. -/
def emptyRedditItem : RedditItem :=
  { title := none, permalink := none, created_utc := none, selftext := none }

/-- A complete Reddit item with a short body. -/
def helloRedditItem : RedditItem :=
  { title := some "T", permalink := some "/p", created_utc := some 0
  , selftext := some "hello" }

/-- A feed entry missing its `published` field. -/
def entMiss : GNewsEntry :=
  { title := some "T1", link := some "L1", published := none, summary := some "S1" }

/-- A complete feed entry. -/
def entFull : GNewsEntry :=
  { title := some "T2", link := some "L2", published := some "2024-01-01T00:00:00"
  , summary := some "S2" }

/-! Order-theoretic facts about the sort key, making `dateBefore` a total
preorder so that the Mathlib sorting lemmas apply. -/

theorem pyStrLeAux_cons {a b : Char} {as bs : List Char} :
    pyStrLeAux (a :: as) (b :: bs) = true ↔
      a.toNat < b.toNat ∨ (a.toNat = b.toNat ∧ pyStrLeAux as bs = true) := by
  by_cases h1 : a.toNat < b.toNat
  · simp [pyStrLeAux, h1]
  · by_cases h2 : a.toNat = b.toNat
    · simp [pyStrLeAux, h1, h2]
    · simp [pyStrLeAux, h1, h2]

theorem pyStrLeAux_total : ∀ as bs : List Char,
    pyStrLeAux as bs = true ∨ pyStrLeAux bs as = true
  | [], _ => Or.inl rfl
  | _ :: _, [] => Or.inr rfl
  | a :: as, b :: bs => by
    rcases Nat.lt_trichotomy a.toNat b.toNat with h | h | h
    · exact Or.inl (pyStrLeAux_cons.mpr (Or.inl h))
    · rcases pyStrLeAux_total as bs with ih | ih
      · exact Or.inl (pyStrLeAux_cons.mpr (Or.inr ⟨h, ih⟩))
      · exact Or.inr (pyStrLeAux_cons.mpr (Or.inr ⟨h.symm, ih⟩))
    · exact Or.inr (pyStrLeAux_cons.mpr (Or.inl h))

theorem pyStrLeAux_trans : ∀ as bs cs : List Char,
    pyStrLeAux as bs = true → pyStrLeAux bs cs = true → pyStrLeAux as cs = true
  | [], _, _ => fun _ _ => rfl
  | _ :: _, [], _ => by intro h _; simp [pyStrLeAux] at h
  | _ :: _, _ :: _, [] => by intro _ h; simp [pyStrLeAux] at h
  | a :: as, b :: bs, c :: cs => by
    intro h1 h2
    rcases pyStrLeAux_cons.mp h1 with hab | ⟨hab, h1r⟩ <;>
      rcases pyStrLeAux_cons.mp h2 with hbc | ⟨hbc, h2r⟩
    · exact pyStrLeAux_cons.mpr (Or.inl (hab.trans hbc))
    · exact pyStrLeAux_cons.mpr (Or.inl (hbc ▸ hab))
    · exact pyStrLeAux_cons.mpr (Or.inl (hab ▸ hbc))
    · exact pyStrLeAux_cons.mpr (Or.inr ⟨hab.trans hbc, pyStrLeAux_trans as bs cs h1r h2r⟩)

theorem pyStrLeAux_antisymm : ∀ as bs : List Char,
    pyStrLeAux as bs = true → pyStrLeAux bs as = true → as = bs
  | [], [], _, _ => rfl
  | [], _ :: _, _, h2 => by simp [pyStrLeAux] at h2
  | _ :: _, [], h1, _ => by simp [pyStrLeAux] at h1
  | a :: as, b :: bs, h1, h2 => by
    rcases pyStrLeAux_cons.mp h1 with h | ⟨heq, hr⟩ <;>
      rcases pyStrLeAux_cons.mp h2 with h2a | ⟨h2b, hr2⟩
    · exact absurd h2a (by omega)
    · exact absurd h (by omega)
    · exact absurd h2a (by omega)
    · have hc : a = b := Char.ext (UInt32.ext heq)
      rw [hc, pyStrLeAux_antisymm as bs hr hr2]

/-- A string at or below the empty string in the Python order is empty. -/
theorem pyStrLe_eq_empty {s : String} (h : pyStrLe s "" = true) : s = "" := by
  cases s with
  | mk data =>
    cases data with
    | nil => rfl
    | cons c cs => simp [pyStrLe, pyStrLeAux] at h

/-- Two records each allowed before the other have equal date cells. -/
theorem dateCell_eq_of_le_le {a b : Rec} (h1 : dateBefore a b)
    (h2 : dateBefore b a) : a.date = b.date := by
  unfold dateBefore at h1 h2
  cases ha : a.date with
  | none =>
    cases hb : b.date with
    | none => rfl
    | some y =>
      rw [ha, hb] at h1
      simp [dateCellLe] at h1
  | some x =>
    cases hb : b.date with
    | none =>
      rw [ha, hb] at h2
      simp [dateCellLe] at h2
    | some y =>
      rw [ha, hb] at h1 h2
      have hd : y.data = x.data := pyStrLeAux_antisymm y.data x.data h1 h2
      exact congrArg some (String.ext hd).symm

/-- A list sorted by `dateBefore` whose date strings are pairwise distinct
is the unique sorted list among its permutations: whatever tie-breaking a
sort implementation chooses, re-sorting such a list must reproduce it. -/
theorem sorted_perm_eq_of_distinct :
    ∀ xs ys : List Rec, xs.Perm ys → List.Sorted dateBefore xs →
      List.Sorted dateBefore ys →
      ys.Pairwise (fun a b => a.date ≠ b.date) → xs = ys
  | [], _, hp, _, _, _ => hp.nil_eq
  | x :: xs, ys, hp, hsx, hsy, hd => by
    cases ys with
    | nil => exact absurd hp.symm.nil_eq (by simp)
    | cons y ys2 =>
      have hxy : x = y := by
        by_contra hne
        have hx2 : x ∈ ys2 := by
          have hm : x ∈ y :: ys2 := hp.mem_iff.mp (List.mem_cons_self _ _)
          rcases List.mem_cons.mp hm with h | h
          · exact absurd h hne
          · exact h
        have hy2 : y ∈ xs := by
          have hm : y ∈ x :: xs := hp.symm.mem_iff.mp (List.mem_cons_self _ _)
          rcases List.mem_cons.mp hm with h | h
          · exact absurd h.symm hne
          · exact h
        have h1 : dateBefore x y := (List.sorted_cons.mp hsx).1 y hy2
        have h2 : dateBefore y x := (List.sorted_cons.mp hsy).1 x hx2
        exact (List.pairwise_cons.mp hd).1 x hx2 (dateCell_eq_of_le_le h1 h2).symm
      subst hxy
      rw [sorted_perm_eq_of_distinct xs ys2 hp.cons_inv (List.sorted_cons.mp hsx).2
        (List.sorted_cons.mp hsy).2 (List.pairwise_cons.mp hd).2]

instance : IsTotal Rec dateBefore where
  total a b := by
    unfold dateBefore
    cases a.date with
    | none =>
      cases b.date with
      | none => exact Or.inl rfl
      | some y => exact Or.inr rfl
    | some x =>
      cases b.date with
      | none => exact Or.inl rfl
      | some y => exact (pyStrLeAux_total y.data x.data).imp id id

instance : IsTrans Rec dateBefore where
  trans a b c hab hbc := by
    unfold dateBefore at *
    cases ha : a.date <;> cases hb : b.date <;> cases hc : c.date <;>
      simp_all [dateCellLe, pyStrLe]
    exact pyStrLeAux_trans _ _ _ hbc hab

/-! Structural facts about `dropDuplicatesFirst`. -/

theorem ddf_sublist : ∀ (l : List Rec) (seen : List (Cell × Cell)),
    List.Sublist (dropDuplicatesFirst l seen) l
  | [], _ => by simp [dropDuplicatesFirst]
  | r :: rs, seen => by
    by_cases h : dedupKey r ∈ seen
    · simpa [dropDuplicatesFirst, h] using (ddf_sublist rs seen).cons r
    · simpa [dropDuplicatesFirst, h] using (ddf_sublist rs (dedupKey r :: seen)).cons₂ r

theorem ddf_not_mem_seen : ∀ (l : List Rec) (seen : List (Cell × Cell))
    (k : Cell × Cell), k ∈ seen → k ∉ (dropDuplicatesFirst l seen).map dedupKey
  | [], _, _ => by simp [dropDuplicatesFirst]
  | r :: rs, seen, k => by
    intro hk
    by_cases h : dedupKey r ∈ seen
    · simpa [dropDuplicatesFirst, h] using ddf_not_mem_seen rs seen k hk
    · have hne : k ≠ dedupKey r := fun he => h (he ▸ hk)
      have htl := ddf_not_mem_seen rs (dedupKey r :: seen) k (List.mem_cons_of_mem _ hk)
      simp only [dropDuplicatesFirst, h, if_false, List.map_cons, List.mem_cons]
      rintro (he | hm)
      · exact hne he
      · exact htl hm

theorem ddf_keys_nodup : ∀ (l : List Rec) (seen : List (Cell × Cell)),
    ((dropDuplicatesFirst l seen).map dedupKey).Nodup
  | [], _ => by simp [dropDuplicatesFirst]
  | r :: rs, seen => by
    by_cases h : dedupKey r ∈ seen
    · simpa [dropDuplicatesFirst, h] using ddf_keys_nodup rs seen
    · simp only [dropDuplicatesFirst, h, if_false, List.map_cons, List.nodup_cons]
      exact ⟨ddf_not_mem_seen rs (dedupKey r :: seen) (dedupKey r)
          (List.mem_cons_self _ _), ddf_keys_nodup rs (dedupKey r :: seen)⟩

theorem ddf_eq_self : ∀ (l : List Rec) (seen : List (Cell × Cell)),
    (l.map dedupKey).Nodup → (∀ k ∈ seen, k ∉ l.map dedupKey) →
    dropDuplicatesFirst l seen = l
  | [], _ => by simp [dropDuplicatesFirst]
  | r :: rs, seen => by
    intro hnd hdisj
    have hr : dedupKey r ∉ seen := fun hmem =>
      hdisj _ hmem (by simp)
    simp only [List.map_cons, List.nodup_cons] at hnd
    have htl : ∀ k ∈ dedupKey r :: seen, k ∉ rs.map dedupKey := by
      intro k hk
      rcases List.mem_cons.mp hk with rfl | hk2
      · exact hnd.1
      · intro hm
        exact hdisj k hk2 (List.mem_cons_of_mem _ hm)
    simp only [dropDuplicatesFirst, hr, if_false]
    rw [ddf_eq_self rs (dedupKey r :: seen) hnd.2 htl]

theorem ddf_find_mem : ∀ (l : List Rec) (seen : List (Cell × Cell)) (r : Rec),
    r ∈ l → dedupKey r ∉ seen →
    ∃ r', l.find? (fun x => dedupKey x == dedupKey r) = some r' ∧
      r' ∈ dropDuplicatesFirst l seen
  | [], _, r => by simp
  | x :: xs, seen, r => by
    intro hr hns
    by_cases hx : dedupKey x = dedupKey r
    · refine ⟨x, ?_, ?_⟩
      · exact List.find?_cons_of_pos _ (by simp [hx])
      · have : dedupKey x ∉ seen := hx ▸ hns
        simp [dropDuplicatesFirst, this]
    · have hr' : r ∈ xs := by
        rcases List.mem_cons.mp hr with rfl | h
        · exact absurd rfl hx
        · exact h
      rw [List.find?_cons_of_neg _ (by simp [hx])]
      by_cases hseen : dedupKey x ∈ seen
      · obtain ⟨r', hf, hm⟩ := ddf_find_mem xs seen r hr' hns
        exact ⟨r', hf, by simpa [dropDuplicatesFirst, hseen] using hm⟩
      · have hns' : dedupKey r ∉ dedupKey x :: seen := by
          intro h
          rcases List.mem_cons.mp h with h2 | h2
          · exact hx h2.symm
          · exact hns h2
        obtain ⟨r', hf, hm⟩ := ddf_find_mem xs (dedupKey x :: seen) r hr' hns'
        refine ⟨r', hf, ?_⟩
        simp only [dropDuplicatesFirst, hseen, if_false]
        exact List.mem_cons_of_mem _ hm

/-- Unfolding of a successful `clean_and_merge`. -/
theorem clean_and_merge_ok {rs ys : List Rec}
    (h : clean_and_merge rs = .ok ys) :
    ys = sortValuesByDateDesc (dropDuplicatesFirst (rs.filter validTitle) []) := by
  by_cases he : rs.isEmpty <;> simp [clean_and_merge, he] at h
  exact h.symm

/-- The loop of `fetch_google_news` propagates the first raised exception. -/
theorem collectRecords_error {f : α → Except String Rec} :
    ∀ {l : List α} {x : α}, x ∈ l → (∃ e, f x = .error e) →
    ∃ e, collectRecords f l = Except.error e := by
  intro l
  induction l with
  | nil => simp
  | cons y ys ih =>
    rintro x hx ⟨e, hfx⟩
    rcases List.mem_cons.mp hx with rfl | hmem
    · exact ⟨e, by simp [collectRecords, hfx]⟩
    · cases hfy : f y with
      | error e2 => exact ⟨e2, by simp [collectRecords, hfy]⟩
      | ok r =>
        obtain ⟨e2, hcol⟩ := ih hmem ⟨e, hfx⟩
        exact ⟨e2, by simp [collectRecords, hfy, hcol]⟩

/-- Truncation bound of the Python slice. -/
theorem pyTake_length_le (n : Nat) (s : String) : (pyTake n s).length ≤ n := by
  show (s.data.take n).length ≤ n
  simp [List.length_take]

/-- Inversion of a successful `fetch_google_news` loop: every returned record
comes from some entry. -/
theorem collectRecords_ok_mem {f : α → Except String Rec} :
    ∀ {l : List α} {rs : List Rec}, collectRecords f l = Except.ok rs →
    ∀ r ∈ rs, ∃ x ∈ l, f x = Except.ok r := by
  intro l
  induction l with
  | nil =>
    intro rs h r hr
    simp only [collectRecords, Except.ok.injEq] at h
    subst h
    simp at hr
  | cons y ys ih =>
    intro rs h r hr
    cases hfy : f y with
    | error e => simp [collectRecords, hfy] at h
    | ok r0 =>
      cases hc : collectRecords f ys with
      | error e => simp [collectRecords, hfy, hc] at h
      | ok rs0 =>
        simp only [collectRecords, hfy, hc, Except.ok.injEq] at h
        subst h
        rcases List.mem_cons.mp hr with rfl | hmem
        · exact ⟨y, List.mem_cons_self _ _, hfy⟩
        · obtain ⟨x, hx, hfx⟩ := ih hc r hmem
          exact ⟨x, List.mem_cons_of_mem _ hx, hfx⟩

/-- A record produced by the news-feed mapping has a summary truncated by the
Python slice. -/
theorem gnewsRecord_summary {p : String → Option String} {e : GNewsEntry} {r : Rec}
    (h : gnewsRecord p e = Except.ok r) : ∃ s, r.summary = some (pyTake 200 s) := by
  obtain ⟨t, l, pub, s⟩ := e
  cases t with
  | none => simp [gnewsRecord] at h
  | some t =>
    cases l with
    | none => simp [gnewsRecord] at h
    | some l =>
      cases pub with
      | none => simp [gnewsRecord] at h
      | some pub =>
        cases hp : p pub with
        | none => simp [gnewsRecord, hp] at h
        | some d =>
          cases s with
          | none => simp [gnewsRecord, hp] at h
          | some s =>
            refine ⟨s, ?_⟩
            simp only [gnewsRecord, hp, Except.ok.injEq] at h
            rw [← h]

/-- The news-feed mapping raises on a missing field, whatever the parser does. -/
theorem gnewsRecord_error_of_missing {p : String → Option String} {en : GNewsEntry}
    (h : en.title = none ∨ en.link = none ∨ en.published = none ∨ en.summary = none) :
    ∃ e, gnewsRecord p en = Except.error e := by
  obtain ⟨t, l, pub, s⟩ := en
  cases t with
  | none => exact ⟨_, rfl⟩
  | some t =>
    cases l with
    | none => exact ⟨_, rfl⟩
    | some l =>
      cases pub with
      | none => exact ⟨_, rfl⟩
      | some pub =>
        cases s with
        | none =>
          cases hp : p pub with
          | none => exact ⟨"ParserError", by simp [gnewsRecord, hp]⟩
          | some d => exact ⟨"AttributeError: summary", by simp [gnewsRecord, hp]⟩
        | some s => simp at h

/-! Claim theorems. -/

/-- C1: the claim says every record whose title is empty or absent is
discarded before dedup/sort, so no empty-title record appears in the merged
output. The code's `dropna(subset=["title"])` only drops `NaN`/`None`
titles: at the failing input below (a Hacker News hit carrying no fields,
which the adapter maps to a record with title `""`), the empty-title record
survives `clean_and_merge` and appears in the output. -/
theorem c1_empty_title_survives :
    fetch_hacker_news (Except.ok [emptyHit]) = [emptyTitleRec] ∧
    emptyTitleRec.title = some "" ∧
    clean_and_merge [emptyTitleRec] = Except.ok [emptyTitleRec] :=
  ⟨rfl, rfl, rfl⟩

/-- C2: among the concatenated records (Reddit, then Google News, then
Hacker News) that survive the title dropna, every dedup-key class is
represented in the merged output by exactly the earliest-occurring record
(the one `find?` returns), whatever the date fields of the later
colliders are. -/
theorem c2_dedup_keeps_first (a b c ys : List Rec)
    (hok : clean_and_merge (a ++ b ++ c) = Except.ok ys) :
    ∀ r ∈ (a ++ b ++ c).filter validTitle,
      ∃ r1, ((a ++ b ++ c).filter validTitle).find?
          (fun x => dedupKey x == dedupKey r) = some r1 ∧
        r1 ∈ ys ∧ ∀ y ∈ ys, dedupKey y = dedupKey r → y = r1 := by
  intro r hr
  have hys := clean_and_merge_ok hok
  obtain ⟨r1, hf, hm⟩ :=
    ddf_find_mem ((a ++ b ++ c).filter validTitle) [] r hr (by simp)
  have hm2 : r1 ∈ ys := by
    rw [hys]
    exact (List.mem_insertionSort _).mpr hm
  refine ⟨r1, hf, hm2, ?_⟩
  intro y hy hkey
  have hperm : ys.Perm (dropDuplicatesFirst ((a ++ b ++ c).filter validTitle) []) := by
    rw [hys]
    exact List.perm_insertionSort _ _
  have hnodup : (ys.map dedupKey).Nodup :=
    ((hperm.map dedupKey).nodup_iff).mpr (ddf_keys_nodup _ _)
  have hkr1 : dedupKey r1 = dedupKey r := by
    have := List.find?_some hf
    simpa using this
  exact List.inj_on_of_nodup_map hnodup hy hm2 (hkey.trans hkr1.symm)

theorem c2_dedup_keeps_first_witness :
    clean_and_merge ([sampleA] ++ [sampleB] ++ []) = Except.ok [sampleA] ∧
    sampleA ∈ [sampleA] := by
  refine ⟨rfl, ?_⟩
  obtain ⟨r1, hf, hm, _⟩ :=
    c2_dedup_keeps_first [sampleA] [sampleB] [] [sampleA] rfl sampleB (by decide)
  have hr1 : r1 = sampleA := by
    have h2 : (([sampleA] ++ [sampleB] ++ []).filter validTitle).find?
        (fun x => dedupKey x == dedupKey sampleB) = some sampleA := by decide
    exact Option.some.inj (hf.symm.trans h2)
  exact hr1 ▸ hm

/-- C3 counterexample: the claim places every record with an unparseable
date after all records with valid dates. The code sorts the raw date
strings in descending lexicographic order, so the record with the
unparseable date "zzz" sorts before the record with the valid date
"2024-01-02T00:00:00", not after it. -/
theorem c3_unparseable_date_sorts_first :
    clean_and_merge [sampleA, sampleZ] = Except.ok [sampleZ, sampleA] ∧
    sampleZ.date = some "zzz" ∧ sampleA.date = some "2024-01-02T00:00:00" :=
  ⟨rfl, rfl, rfl⟩

/-- C3 as amended: the merged output is the post-dedup record set sorted by
the raw date string in descending code-point order with `NaN` dates placed
last (the `dateBefore` order); records with empty-string dates therefore
come after every record with a non-empty date string (third conjunct: a
record that follows an empty-dated one carries an empty or `NaN` date),
while a non-empty unparseable date string sorts by its text and can precede
valid dates. The relative order of records with equal date strings is not
part of the claim: the program's default quicksort leaves it unspecified,
and this theorem asserts only tie-order-independent facts (sortedness and
the row multiset), which hold of every correct sort of the key. -/
theorem c3_sorted_by_raw_date_desc (rs ys : List Rec)
    (hok : clean_and_merge rs = Except.ok ys) :
    List.Sorted dateBefore ys ∧
    ys.Perm (dropDuplicatesFirst (rs.filter validTitle) []) ∧
    ∀ a b : Rec, List.Sublist [a, b] ys → a.date = some "" →
      ∀ s, b.date = some s → s = "" := by
  have hys := clean_and_merge_ok hok
  subst hys
  refine ⟨List.sorted_insertionSort _ _, List.perm_insertionSort _ _, ?_⟩
  intro a b hs ha s hb
  have hab : dateBefore a b :=
    List.pairwise_iff_forall_sublist.mp (List.sorted_insertionSort _ _) hs
  unfold dateBefore at hab
  rw [ha, hb] at hab
  exact pyStrLe_eq_empty hab

theorem c3_sorted_by_raw_date_desc_witness :
    List.Sorted dateBefore [sampleZ, sampleA] :=
  (c3_sorted_by_raw_date_desc [sampleA, sampleZ] [sampleZ, sampleA] rfl).1

set_option maxRecDepth 4000 in
/-- C4 counterexample: the claim says every adapter truncates the summary to
at most 200 characters at mapping time. The Hacker News adapter applies no
truncation: a hit with a 201-character story text yields a record whose
summary is the full 201-character string. -/
theorem c4_hn_summary_not_truncated :
    fetch_hacker_news (Except.ok [longHit]) =
      [{ source := some "Hacker News", title := some "T", link := some "u"
       , date := some "2024-01-02T00:00:00.000Z", summary := some longText }] ∧
    longText.length = 201 ∧ ¬ longText.length ≤ 200 := by
  have hlen : longText.length = 201 := by
    rw [show longText = String.mk (List.replicate 201 'a') from rfl,
      String.length_mk, List.length_replicate]
  refine ⟨rfl, hlen, ?_⟩
  rw [hlen]
  omega

/-- C4 as amended: the Reddit and Google News adapters truncate every
summary to at most 200 characters at mapping time; the Hacker News adapter
passes a non-empty story text through unchanged, with no truncation. -/
theorem c4_summary_truncation (fromts : Int → String)
    (parseIso : String → Option String) (resp : Except String (List RedditItem))
    (feed : Except String (List GNewsEntry)) :
    (∀ r ∈ fetch_reddit fromts resp, (r.summary.getD "").length ≤ 200) ∧
    (∀ r ∈ fetch_google_news parseIso feed, (r.summary.getD "").length ≤ 200) ∧
    (∀ (h : HNHit) (s : String), h.story_text = some s → s ≠ "" →
      (hnRecord h).summary = some s) := by
  refine ⟨?_, ?_, ?_⟩
  · intro r hr
    cases resp with
    | error e => simp [fetch_reddit] at hr
    | ok posts =>
      simp only [fetch_reddit, List.mem_map] at hr
      obtain ⟨item, _, rfl⟩ := hr
      simpa [redditRecord] using pyTake_length_le 200 (item.selftext.getD "")
  · intro r hr
    cases feed with
    | error e => simp [fetch_google_news] at hr
    | ok entries =>
      cases hc : collectRecords (gnewsRecord parseIso) entries with
      | error e => simp [fetch_google_news, hc] at hr
      | ok recs =>
        simp only [fetch_google_news, hc] at hr
        obtain ⟨en, _, hok⟩ := collectRecords_ok_mem hc r hr
        obtain ⟨s, hs⟩ := gnewsRecord_summary hok
        simpa [hs] using pyTake_length_le 200 s
  · intro h s hst hne
    have hie : s.isEmpty = false := by
      cases hia : s.isEmpty
      · rfl
      · exact absurd ((String.isEmpty_iff s).mp hia) hne
    simp [hnRecord, hst, pyTruthy, hie]

theorem c4_summary_truncation_witness :
    ((redditRecord (fun _ => "1970-01-01T00:00:00")
      helloRedditItem).summary.getD "").length ≤ 200 ∧
    (hnRecord longHit).summary = some longText := by
  constructor
  · exact (c4_summary_truncation (fun _ => "1970-01-01T00:00:00") (fun s => some s)
      (Except.ok [helloRedditItem]) (Except.ok [])).1 _ (List.mem_singleton_self _)
  · exact (c4_summary_truncation (fun _ => "1970-01-01T00:00:00") (fun s => some s)
      (Except.ok []) (Except.ok [])).2.2 longHit longText rfl (by decide)

/-- C5: each adapter body runs entirely inside a try/except handler, so on
any collaborator failure (network error, timeout, malformed response - the
`Except.error` cases) the adapter returns the empty sequence rather than
raising; and a failure inside the Google News mapping loop (missing field
or unparseable date in any entry) also yields the empty sequence. -/
theorem c5_adapters_fail_soft (fromts : Int → String)
    (parseIso : String → Option String) (e1 e2 e3 : String) :
    fetch_reddit fromts (Except.error e1) = [] ∧
    fetch_google_news parseIso (Except.error e2) = [] ∧
    fetch_hacker_news (Except.error e3) = [] ∧
    ∀ entries : List GNewsEntry,
      (∃ en ∈ entries, ∃ e, gnewsRecord parseIso en = Except.error e) →
      fetch_google_news parseIso (Except.ok entries) = [] := by
  refine ⟨rfl, rfl, rfl, ?_⟩
  rintro entries ⟨en, hen, he⟩
  obtain ⟨e0, hc⟩ := collectRecords_error hen he
  simp [fetch_google_news, hc]

theorem c5_adapters_fail_soft_witness :
    fetch_google_news (fun s => some s) (Except.ok [entMiss]) = [] :=
  (c5_adapters_fail_soft (fun _ => "") (fun s => some s) "" "" "").2.2.2
    [entMiss] ⟨entMiss, List.mem_singleton_self _, "AttributeError: published", rfl⟩

/-- C6 counterexample: the claim says a missing field in one fetched item is
recovered by substituting a default, and the other items of the same call
are still returned. In the Google News adapter a missing `published` field
raises inside the loop and the call-level handler returns the empty list:
the complete second entry (which maps fine on its own) is lost too. -/
theorem c6_gnews_drops_whole_call :
    fetch_google_news (fun s => some s) (Except.ok [entMiss, entFull]) = [] ∧
    fetch_google_news (fun s => some s) (Except.ok [entFull]) =
      [{ source := some "Google News", title := some "T2", link := some "L2"
       , date := some "2024-01-01T00:00:00", summary := some "S2" }] :=
  ⟨rfl, rfl⟩

/-- C6 as amended: the Reddit and Hacker News adapters substitute defaults
(empty string / zero) per item for missing fields and still return every
item of the call; the Google News adapter instead propagates a missing
field on any entry to its call-level handler, so the whole call returns the
empty sequence and the other items of that call are lost. -/
theorem c6_field_defaults (fromts : Int → String)
    (parseIso : String → Option String) :
    (∀ items : List RedditItem,
      fetch_reddit fromts (Except.ok items) = items.map (redditRecord fromts)) ∧
    (redditRecord fromts emptyRedditItem =
      { source := some "Reddit", title := some ""
      , link := some "https://www.reddit.com", date := some (fromts 0)
      , summary := some "" }) ∧
    (∀ hits : List HNHit, fetch_hacker_news (Except.ok hits) = hits.map hnRecord) ∧
    (hnRecord emptyHit = emptyTitleRec) ∧
    (∀ (entries : List GNewsEntry) (en : GNewsEntry), en ∈ entries →
      (en.title = none ∨ en.link = none ∨ en.published = none ∨
        en.summary = none) →
      fetch_google_news parseIso (Except.ok entries) = []) := by
  refine ⟨fun _ => rfl, rfl, fun _ => rfl, rfl, ?_⟩
  intro entries en hen hmiss
  obtain ⟨e0, hc⟩ :=
    collectRecords_error hen (gnewsRecord_error_of_missing (p := parseIso) hmiss)
  simp [fetch_google_news, hc]

theorem c6_field_defaults_witness :
    fetch_google_news (fun s => some s) (Except.ok [entMiss, entFull]) = [] :=
  (c6_field_defaults (fun _ => "") (fun s => some s)).2.2.2.2
    [entMiss, entFull] entMiss (List.mem_cons_self _ _)
    (Or.inr (Or.inr (Or.inl rfl)))

/-- C7: the Hacker News adapter carries the source's own `created_at`
string into the record's date unchanged (defaulting to the empty string
when absent, with no reparsing), and when the hit carries no story text
(absent, null or empty - all falsy in Python) the record's summary is the
empty string. -/
theorem c7_hn_date_passthrough (hits : List HNHit) :
    fetch_hacker_news (Except.ok hits) = hits.map hnRecord ∧
    ∀ h ∈ hits, (hnRecord h).date = some (h.created_at.getD "") ∧
      (∀ d, h.created_at = some d → (hnRecord h).date = some d) ∧
      (pyTruthy h.story_text = false → (hnRecord h).summary = some "") := by
  refine ⟨rfl, ?_⟩
  intro h _
  refine ⟨rfl, ?_, ?_⟩
  · intro d hd
    simp [hnRecord, hd]
  · intro ht
    simp [hnRecord, ht]

theorem c7_hn_date_passthrough_witness :
    (hnRecord longHit).date = some "2024-01-02T00:00:00.000Z" ∧
    (hnRecord emptyHit).summary = some "" := by
  have H := c7_hn_date_passthrough [longHit, emptyHit]
  exact ⟨(H.2 longHit (List.mem_cons_self _ _)).2.1 _ rfl,
    (H.2 emptyHit (by simp)).2.2 rfl⟩

/-- C8 counterexample: the claim asserts merge(merge(X)) = merge(X) for
every record set X. For X = [noTitleRec] the merge output is the empty
sequence, and merging that empty sequence raises the empty-table KeyError
instead of returning it, so composing merge with itself differs from a
single merge at this input. -/
theorem c8_merge_not_idempotent_on_empty_output :
    clean_and_merge [noTitleRec] = Except.ok [] ∧
    clean_and_merge ([] : List Rec) = Except.error "KeyError: title" ∧
    Except.bind (clean_and_merge [noTitleRec]) clean_and_merge ≠
      clean_and_merge [noTitleRec] :=
  ⟨rfl, rfl, fun h => Except.noConfusion h⟩

/-- C8 as amended: merge is idempotent on every input whose merge output is
nonempty and whose records carry pairwise-distinct date strings: re-merging
that output returns it unchanged. The distinct-dates hypothesis is what
makes the statement independent of the sort's tie-breaking (the program's
default quicksort is not stable): the second conjunct shows the output is
the unique `dateBefore`-sorted list among its permutations, so any correct
re-sort - whatever order it would give tied rows - must reproduce it
verbatim. Without that hypothesis only the record multiset and the date
ordering of the re-merge are guaranteed, and on an empty merge output
re-merging raises the empty-table KeyError (the counterexample). -/
theorem c8_merge_idempotent_nonempty (rs ys : List Rec)
    (hok : clean_and_merge rs = Except.ok ys) (hne : ys ≠ [])
    (hdates : ys.Pairwise (fun a b => a.date ≠ b.date)) :
    clean_and_merge ys = Except.ok ys ∧
    ∀ zs : List Rec, zs.Perm ys → List.Sorted dateBefore zs → zs = ys := by
  have hys := clean_and_merge_ok hok
  have hvalid : ∀ r ∈ ys, validTitle r = true := by
    intro r hr
    rw [hys] at hr
    have h1 : r ∈ dropDuplicatesFirst (rs.filter validTitle) [] :=
      (List.mem_insertionSort _).mp hr
    exact List.of_mem_filter ((ddf_sublist _ _).subset h1)
  have hperm : ys.Perm (dropDuplicatesFirst (rs.filter validTitle) []) := by
    rw [hys]
    exact List.perm_insertionSort _ _
  have hnodup : (ys.map dedupKey).Nodup :=
    ((hperm.map dedupKey).nodup_iff).mpr (ddf_keys_nodup _ _)
  have hfilter : ys.filter validTitle = ys := List.filter_eq_self.mpr hvalid
  have hddf : dropDuplicatesFirst ys [] = ys := ddf_eq_self ys [] hnodup (by simp)
  have hsorted : List.Sorted dateBefore ys := by
    rw [hys]
    exact List.sorted_insertionSort _ _
  have hsort : sortValuesByDateDesc ys = ys := hsorted.insertionSort_eq
  have hempty : ys.isEmpty = false := by
    cases ys with
    | nil => exact absurd rfl hne
    | cons a l => rfl
  constructor
  · rw [clean_and_merge, if_neg (by simp [hempty]), hfilter, hddf, hsort]
  · intro zs hzp hzs
    exact sorted_perm_eq_of_distinct zs ys hzp hzs hsorted hdates

theorem c8_merge_idempotent_nonempty_witness :
    clean_and_merge [sampleA] = Except.ok [sampleA] :=
  (c8_merge_idempotent_nonempty [sampleA, sampleB] [sampleA] rfl (by simp)
    (by simp)).1

/-- C9: the sink write is a full replace: whatever rows previously occupied
the sheet, after save_to_sheet the sheet holds exactly the header row
naming the Record fields in order source, title, link, date, summary,
followed by one row per record in the given order. -/
theorem c9_save_full_replace (df : List Rec) (prior : List (List Cell)) :
    (save_to_sheet df ⟨prior⟩).rows = dfColumns :: df.map recToRow ∧
    dfColumns = [some "source", some "title", some "link", some "date"
      , some "summary"] ∧
    (save_to_sheet df ⟨prior⟩).rows.length = df.length + 1 := by
  refine ⟨?_, rfl, ?_⟩ <;>
    simp [save_to_sheet, Sheet.clear, Sheet.update]

/-- C10: when every adapter contributes the empty sequence (here because
each collaborator failed), the combined input to the aggregator is the
empty list, and clean_and_merge raises the missing-column KeyError of
dropna on a column-less empty DataFrame instead of returning an empty
output. -/
theorem c10_empty_input_keyerror (fromts : Int → String)
    (parseIso : String → Option String) (e1 e2 e3 : String) :
    clean_and_merge (fetch_reddit fromts (Except.error e1) ++
      fetch_google_news parseIso (Except.error e2) ++
      fetch_hacker_news (Except.error e3)) = Except.error "KeyError: title" :=
  rfl

end Automation
